import Mathlib

/-
Formal model of the brightdata-email-extractor pipeline.

The repository has two source files:
  * src/email_scraper.py — BrightdataClient, SupabaseClient, EmailScraperEngine
  * src/app.py           — Streamlit orchestrators for the four pipeline stages

Each definition below is a shallow embedding of a function from those files
(Python strings become List Char, dicts become association lists, exceptions
become explicit outcome values, and the database becomes an explicit record
of tables).  Theorems at the end of the file settle the claims of the
specification against these definitions.
-/

/-- Python `str.lower()` restricted to the ASCII texts the client compares
(error messages); `Char.toLower` agrees with Python on ASCII. -/
def pyLower (s : List Char) : List Char := s.map Char.toLower

/-- The Python substring test `needle in haystack` on character lists:
true iff `needle` occurs contiguously inside `haystack`. -/
def containsSub (needle haystack : List Char) : Bool :=
  match haystack with
  | [] => needle.isEmpty
  | _ :: t => needle.isPrefixOf haystack || containsSub needle t

/-- Outcome of a database insert as seen by the Python client: either the
insert executed, or the client library raised an exception carrying a
message (`str(e)` in the source). -/
inductive InsertOutcome where
  | ok
  | exn (msg : List Char)
deriving DecidableEq

/-- The error-type string `duplicate` returned by the save operations. -/
def errDuplicate : List Char := ("duplicate").toList

/-- The error-type string `error` returned by the save operations. -/
def errError : List Char := ("error").toList

/-- The error classification shared by `SupabaseClient.save_email` and
`SupabaseClient.save_response` (src/email_scraper.py lines 223-231 and
256-264): an exception is a duplicate iff `str(e).lower()` contains the
substring `duplicate` or the substring `unique`; any other exception is a
plain error. -/
def classifyInsertError (msg : List Char) : List Char :=
  if containsSub ("duplicate").toList (pyLower msg)
      || containsSub ("unique").toList (pyLower msg)
  then errDuplicate
  else errError

/-- `SupabaseClient.save_email` (src/email_scraper.py lines 205-231),
as a function of the insert outcome.  Returns the Python pair
`(success, error_type)`: `(True, empty)` on success, `(False, duplicate)`
or `(False, error)` on an exception. -/
def save_email (outcome : InsertOutcome) : Bool × List Char :=
  match outcome with
  | .ok => (true, [])
  | .exn msg => (false, classifyInsertError msg)

/-- `SupabaseClient.save_response` (src/email_scraper.py lines 233-264):
its success/error-type result is computed exactly as in `save_email`. -/
def save_response (outcome : InsertOutcome) : Bool × List Char :=
  match outcome with
  | .ok => (true, [])
  | .exn msg => (false, classifyInsertError msg)

/-- Python `range(start, n, step)` (ascending, as used in the sources).
The source never calls it with `step = 0` (which would raise ValueError);
the model returns `[]` in that unreachable case. -/
def pyRange (start n step : Nat) : List Nat :=
  if h : 0 < step ∧ start < n then start :: pyRange (start + step) n step else []
termination_by n - start
decreasing_by
  omega

/-- The run-local accumulator of `EmailScraperEngine.process_queries`
(src/email_scraper.py lines 357-361), extended with the trace of
`save_snapshot` invocations so that job-record creation is observable. -/
structure Stage1Acc where
  successful_snapshots : Nat
  failed_batches : Nat
  total_batches : Nat
  submitted_ids : List String
  send_calls : List (List String)
  save_calls : List String
deriving DecidableEq

/-- Dictionary membership plus lookup: the Python test
`snapshot_id in response` followed by the access `response[snapshot_id]`. -/
def lookupKey (r : List (String × String)) (k : String) : Option String :=
  (r.find? (fun p => p.1 == k)).map (fun p => p.2)

/-- The submission result a loop iteration acts on: the Python guard
`if response and snapshot_id in response` is true iff the response is not
None, is a non-empty dict, and contains the key; in that case the snapshot
id is the looked-up value. -/
def respSid (resp : Option (List (String × String))) : Option String :=
  match resp with
  | none => none
  | some r => if r.isEmpty then none else lookupKey r ("snapshot_id")

/-- Loop body of `EmailScraperEngine.process_queries`
(src/email_scraper.py lines 366-391), one iteration per index produced by
`range(0, total_queries, batch_size)`.  The Python loop reassigns
`batch_size = len(batch)` each iteration, which changes the slice bound for
later iterations but not the (already materialised) range; the model
threads that reassigned value as `bs`. -/
def process_queries_go (send : List String → Option (List (String × String)))
    (save : String → Bool) (queries : List String) :
    List Nat → Nat → Stage1Acc → Stage1Acc
  | [], _, acc => acc
  | i :: is, bs, acc =>
    let batch := (queries.drop i).take bs
    let acc1 : Stage1Acc :=
      { acc with
        total_batches := acc.total_batches + 1
        send_calls := acc.send_calls ++ [batch] }
    let acc2 : Stage1Acc :=
      match respSid (send batch) with
      | some sid =>
        if save sid then
          { acc1 with
            successful_snapshots := acc1.successful_snapshots + 1
            submitted_ids := acc1.submitted_ids ++ [sid]
            save_calls := acc1.save_calls ++ [sid] }
        else
          { acc1 with
            failed_batches := acc1.failed_batches + 1
            save_calls := acc1.save_calls ++ [sid] }
      | none =>
        { acc1 with failed_batches := acc1.failed_batches + 1 }
    process_queries_go send save queries is batch.length acc2

/-- `EmailScraperEngine.process_queries` (src/email_scraper.py lines
346-401), parameterised by the Brightdata `send_request` outcome per batch
and the `save_snapshot` outcome per snapshot id. -/
def process_queries (send : List String → Option (List (String × String)))
    (save : String → Bool) (queries : List String) (batch_size : Nat) :
    Stage1Acc :=
  process_queries_go send save queries
    (pyRange 0 queries.length batch_size) batch_size
    ⟨0, 0, 0, [], [], []⟩

/-- A concrete Brightdata stub for instantiating `process_queries`:
batches of length 1 fail, others return snapshot id s1. -/
def sendC4 : List String → Option (List (String × String)) :=
  fun b => if b.length = 1 then none else some [(("snapshot_id"), ("s1"))]

/-- JSON-like Python values, as produced by `response.json()` and consumed
by `json.dumps` in the sources.  Numbers are modelled as integers; none of
the claims depends on float formatting. -/
inductive PyJson where
  | null
  | bool (b : Bool)
  | num (n : Int)
  | str (s : List Char)
  | arr (xs : List PyJson)
  | obj (fields : List (List Char × PyJson))

/-- Opening brace character (written via its code point). -/
def lbrace : Char := Char.ofNat 123

/-- Closing brace character (written via its code point). -/
def rbrace : Char := Char.ofNat 125

/-- The string escaping of `json.dumps` for the characters relevant here:
backslash and double quote are escaped, other characters are emitted
as-is (control and non-ASCII escapes are irrelevant to the claims). -/
def jsonEscape (s : List Char) : List Char :=
  match s with
  | [] => []
  | c :: t =>
    if c = '\\' || c = '"' then '\\' :: c :: jsonEscape t
    else c :: jsonEscape t

mutual

/-- Python `json.dumps` with its default item and key separators,
restricted to the escaping in `jsonEscape`. -/
def dumps : PyJson → List Char
  | .null => ("null").toList
  | .bool true => ("true").toList
  | .bool false => ("false").toList
  | .num n => (toString n).toList
  | .str s => '"' :: jsonEscape s ++ ['"']
  | .arr xs => '[' :: dumpsArr xs ++ [']']
  | .obj fs => lbrace :: dumpsObj fs ++ [rbrace]

/-- Comma-separated serialisation of the elements of an array. -/
def dumpsArr : List PyJson → List Char
  | [] => []
  | [x] => dumps x
  | x :: y :: t => dumps x ++ [',', ' '] ++ dumpsArr (y :: t)

/-- Comma-separated serialisation of the key/value pairs of an object. -/
def dumpsObj : List (List Char × PyJson) → List Char
  | [] => []
  | [(k, v)] => '"' :: jsonEscape k ++ ['"', ':', ' '] ++ dumps v
  | (k, v) :: f :: t =>
    '"' :: jsonEscape k ++ ['"', ':', ' '] ++ dumps v ++ [',', ' ']
      ++ dumpsObj (f :: t)

end

/-- The class `[A-Za-z0-9._%+-]` (local part) of the email pattern in
`extract_emails_from_text` (src/app.py line 543). -/
def isLocalChar (c : Char) : Bool :=
  c.isAlpha || c.isDigit || c = '.' || c = '_' || c = '%' || c = '+' || c = '-'

/-- The class `[A-Za-z0-9.-]` (domain part) of the email pattern. -/
def isDomainChar (c : Char) : Bool :=
  c.isAlpha || c.isDigit || c = '.' || c = '-'

/-- The class `[A-Z|a-z]` (final label): the ASCII letters and, because the
pattern spells the class with a literal bar, the character `|`. -/
def isTldChar (c : Char) : Bool :=
  ('A' ≤ c && c ≤ 'Z') || c = '|' || ('a' ≤ c && c ≤ 'z')

/-- The Python class `\w` on the ASCII texts involved (letters, digits,
underscore); it decides the `\b` word-boundary assertions. -/
def isWordChar (c : Char) : Bool := c.isAlpha || c.isDigit || c = '_'

/-- Word-character test lifted to positions outside the text. -/
def isWordOpt (c : Option Char) : Bool :=
  match c with
  | none => false
  | some c => isWordChar c

/-- The `\b` assertion between the character before the position and the
character at the position. -/
def wordBoundary (prev next : Option Char) : Bool := isWordOpt prev != isWordOpt next

/-- Candidate lengths for a greedy `{2,}` repetition over a run of length
`n`, longest first: `[n, n-1, ..., 2]`. -/
def descLens (n : Nat) : List Nat := (List.range (n - 1)).map (fun i => n - i)

/-- Matching `[A-Z|a-z]{2,}\b` at the head of `t`, with the backtracking
order of Python `re`: the greedy repetition takes the longest prefix of
`t`-characters in the class and shrinks (never below 2) until the trailing
`\b` holds.  Returns the matched label and the remaining input. -/
def matchTld (t : List Char) : Option (List Char × List Char) :=
  let trun := t.takeWhile isTldChar
  let tafter := t.dropWhile isTldChar
  (descLens trun.length).findSome? (fun k =>
    if wordBoundary (trun.take k).getLast? ((trun.drop k ++ tafter).head?)
    then some (trun.take k, trun.drop k ++ tafter)
    else none)

/-- Matching `[A-Za-z0-9.-]+\.[A-Z|a-z]{2,}\b` at the head of `r`, with the
backtracking order of Python `re`: the greedy `+` takes the longest run of
domain characters and shrinks until the following character it yields back
is the literal dot (the dot is inside the run, since `.` is in the domain
class); longer runs are preferred.  Returns the domain part, the final
label and the remaining input. -/
def matchDomainTld (r : List Char) : Option (List Char × List Char × List Char) :=
  let run := r.takeWhile isDomainChar
  let after := r.dropWhile isDomainChar
  (((List.range run.length).filter
      (fun k => decide (1 ≤ k) && (run[k]? == some '.'))).reverse).findSome?
    (fun k =>
      match matchTld (run.drop (k + 1) ++ after) with
      | some (tld, rest) => some (run.take k, tld, rest)
      | none => none)

/-- Attempting the whole pattern
`\b[A-Za-z0-9._%+-]+@[A-Za-z0-9.-]+\.[A-Z|a-z]{2,}\b` anchored at the head
of `s`, where `prev` is the character before that position.  The leading
`+` needs no backtracking: `@` is not a local character, so only the
maximal local run can be followed by `@`.  Returns the match and the
remaining input. -/
def matchAt (prev : Option Char) (s : List Char) : Option (List Char × List Char) :=
  if wordBoundary prev s.head? then
    let l := s.takeWhile isLocalChar
    if l.isEmpty then none
    else
      match s.dropWhile isLocalChar with
      | c :: r2 =>
        if c = '@' then
          match matchDomainTld r2 with
          | some (dom, tld, rest) => some (l ++ '@' :: dom ++ '.' :: tld, rest)
          | none => none
        else none
      | [] => none
  else none

/-- The scan loop of `re.findall`: try the pattern at every position, left
to right; on a match, continue after it (matches do not overlap).  The fuel
starts at the length of the text; every step consumes at least one
character, so the fuel never runs out before the text does. -/
def findallAux : Nat → Option Char → List Char → List (List Char)
  | 0, _, _ => []
  | _ + 1, _, [] => []
  | fuel + 1, prev, c :: cs =>
    match matchAt prev (c :: cs) with
    | some (m, rest) => m :: findallAux fuel m.getLast? rest
    | none => findallAux fuel (some c) cs

/-- `re.findall(email_pattern, text)` for the pattern of
`extract_emails_from_text` (src/app.py line 543). -/
def findallEmails (text : List Char) : List (List Char) :=
  findallAux text.length none text

/-- `extract_emails_from_text` (src/app.py lines 532-549): find all
pattern matches, then `list(set(emails))`.  A Python set fixes the set of
elements but not their order; the model returns the deduplicated list in
first-occurrence order, which realises the same set. -/
def extract_emails_from_text (text : List Char) : List (List Char) :=
  (findallEmails text).dedup

/-- `extract_emails_from_json` (src/app.py lines 552-568): serialise the
payload with `json.dumps` and extract from the resulting string. -/
def extract_emails_from_json (j : PyJson) : List (List Char) :=
  extract_emails_from_text (dumps j)

/-- Splitting a character list at the first occurrence of `c`. -/
def splitAtChar (c : Char) (s : List Char) : Option (List Char × List Char) :=
  match s with
  | [] => none
  | d :: t =>
    if d = c then some ([], t)
    else
      match splitAtChar c t with
      | some (a, b) => some (d :: a, b)
      | none => none

/-- Splitting a character list on every occurrence of `.`. -/
def splitOnDot (s : List Char) : List (List Char) :=
  match s with
  | [] => [[]]
  | c :: t =>
    if c = '.' then [] :: splitOnDot t
    else
      match splitOnDot t with
      | [] => [[c]]
      | h :: r => (c :: h) :: r

/-- Modelled from the spec wording of claim C6, for comparison with the
code: a canonical address is a local part over `[A-Za-z0-9._%+-]`, an `@`,
nonempty domain labels (letters, digits, hyphen) separated by `.`, and a
top-level label of 2 or more letters (letters only). -/
def isSpecEmail (s : List Char) : Bool :=
  match splitAtChar '@' s with
  | none => false
  | some (loc, domain) =>
    let labels := splitOnDot domain
    (!loc.isEmpty) && loc.all isLocalChar
    && decide (2 ≤ labels.length)
    && labels.dropLast.all
        (fun lb => !lb.isEmpty && lb.all (fun c => c.isAlpha || c.isDigit || c = '-'))
    && (match labels.getLast? with
        | some tld => decide (2 ≤ tld.length) && tld.all Char.isAlpha
        | none => false)

/-- The decomposition every string produced by the source pattern
`\b[A-Za-z0-9._%+-]+@[A-Za-z0-9.-]+\.[A-Z|a-z]{2,}\b` admits. -/
def EmailShape (m : List Char) : Prop :=
  ∃ l d t, m = l ++ '@' :: (d ++ '.' :: t) ∧ l ≠ [] ∧ l.all isLocalChar = true ∧
    d ≠ [] ∧ d.all isDomainChar = true ∧ 2 ≤ t.length ∧ t.all isTldChar = true

/-- A payload whose serialisation contains the same address twice. -/
def jC7 : PyJson :=
  .obj [(("k1").toList, .str ("x a@bb.cc y").toList),
        (("k2").toList, .str ("z a@bb.cc w").toList)]

/-- The three Supabase tables the clients touch (spec section 6: unique
keys on snapshot_id in snapshot_table and response_table, and on email in
email_table).  snapshot_table rows are (snapshot_id, processed);
response_table rows are (snapshot_id, (response, is_email_extracted)). -/
structure StoreState where
  snapshot_table : List (String × Bool)
  response_table : List (String × PyJson × Bool)
  email_table : List String

/-- Database effect of `SupabaseClient.save_snapshot` (src/email_scraper.py
lines 144-166): insert `(snapshot_id, processed=False)`; the unique key
makes a second insert for the same id raise, leaving the table unchanged. -/
def save_snapshot_op (id : String) (s : StoreState) : StoreState :=
  if s.snapshot_table.any (fun r => r.1 == id) then s
  else { s with snapshot_table := s.snapshot_table ++ [(id, false)] }

/-- Database effect of `SupabaseClient.mark_as_processed`
(src/email_scraper.py lines 186-203): update `processed=True` on every row
whose snapshot_id matches. -/
def mark_as_processed_op (id : String) (s : StoreState) : StoreState :=
  { s with
    snapshot_table :=
      s.snapshot_table.map (fun r => if r.1 == id then (r.1, true) else r) }

/-- Database effect of `SupabaseClient.save_response` (src/email_scraper.py
lines 233-264): insert `(snapshot_id, response, is_email_extracted=False)`;
a duplicate key raises, leaving the table unchanged. -/
def save_response_op (id : String) (p : PyJson) (s : StoreState) : StoreState :=
  if s.response_table.any (fun r => r.1 == id) then s
  else { s with response_table := s.response_table ++ [(id, p, false)] }

/-- Database effect of `SupabaseClient.mark_email_extracted`
(src/email_scraper.py lines 284-301): update `is_email_extracted=True` on
every row whose snapshot_id matches. -/
def mark_email_extracted_op (id : String) (s : StoreState) : StoreState :=
  { s with
    response_table :=
      s.response_table.map (fun r => if r.1 == id then (r.1, r.2.1, true) else r) }

/-- Database effect of `SupabaseClient.save_email` (src/email_scraper.py
lines 205-231): insert the address; a duplicate key raises, leaving the
table unchanged. -/
def save_email_op (a : String) (s : StoreState) : StoreState :=
  if s.email_table.any (fun r => r == a) then s
  else { s with email_table := s.email_table ++ [a] }

/-- The complete set of store-mutating operations any stage of the system
ever issues (the remaining client methods are reads). -/
inductive StoreOp where
  | saveSnapshot (id : String)
  | markAsProcessed (id : String)
  | saveResponse (id : String) (p : PyJson)
  | markEmailExtracted (id : String)
  | saveEmail (a : String)

/-- Interpretation of one operation on the store. -/
def applyOp (op : StoreOp) (s : StoreState) : StoreState :=
  match op with
  | .saveSnapshot id => save_snapshot_op id s
  | .markAsProcessed id => mark_as_processed_op id s
  | .saveResponse id p => save_response_op id p s
  | .markEmailExtracted id => mark_email_extracted_op id s
  | .saveEmail a => save_email_op a s

/-- Interpretation of a sequence of operations (any interleaving of stage
invocations), first operation first. -/
def applyOps (ops : List StoreOp) (s : StoreState) : StoreState :=
  match ops with
  | [] => s
  | op :: rest => applyOps rest (applyOp op s)

/-- A job is Processed when some snapshot_table row for its id carries
processed=true. -/
def snapshotProcessed (s : StoreState) (id : String) : Bool :=
  s.snapshot_table.any (fun r => r.1 == id && r.2)

/-- A response is extracted when some response_table row for its id carries
is_email_extracted=true. -/
def responseExtracted (s : StoreState) (id : String) : Bool :=
  s.response_table.any (fun r => r.1 == id && r.2.2)

/-- Python truthiness of the values that can flow through `data` in the
Stage-2 loop (`elif data:` in src/app.py line 402). -/
def pyTruthy (v : Option PyJson) : Bool :=
  match v with
  | none => false
  | some .null => false
  | some (.bool b) => b
  | some (.num n) => decide (n ≠ 0)
  | some (.str s) => !s.isEmpty
  | some (.arr xs) => !xs.isEmpty
  | some (.obj fs) => !fs.isEmpty

/-- The per-outcome counters of one Stage-2 loop iteration, plus whether
`mark_as_processed` was invoked during it. -/
structure Stage2Item where
  successful : Nat
  failed : Nat
  skipped : Nat
  db_errors : Nat
  duplicate_snapshots : Nat
  running_snapshots : Nat
  markProcessedCalled : Bool
deriving DecidableEq

/-- One iteration of the Stage-2 loop in `process_unprocessed_snapshots`
(src/app.py lines 396-429), taking the poll result as the pair
(data, is_running) the call site expects: skip while running; on a
retrieved payload, `save_response` then `mark_as_processed` when the save
succeeded or reported a duplicate, and no mark on a save error; skip when
no data.  `saveOutcome` is the insert outcome of `save_response` (its text
classifies duplicates, as in `classifyInsertError`); `markFault` models an
exception inside `mark_as_processed`, which then returns False and leaves
the table unchanged. -/
def stage2_item (sid : String) (is_running : Bool) (data : Option PyJson)
    (saveOutcome : InsertOutcome) (markFault : Bool) (s : StoreState) :
    Stage2Item × StoreState :=
  if is_running then (⟨0, 0, 0, 0, 0, 1, false⟩, s)
  else if pyTruthy data then
    let s1 :=
      match saveOutcome with
      | .ok => save_response_op sid (data.getD .null) s
      | .exn _ => s
    if (save_response saveOutcome).1 then
      if markFault then (⟨0, 1, 0, 1, 0, 0, true⟩, s1)
      else (⟨1, 0, 0, 0, 0, 0, true⟩, mark_as_processed_op sid s1)
    else if (save_response saveOutcome).2 = errDuplicate then
      if markFault then (⟨0, 0, 0, 0, 1, 0, true⟩, s1)
      else (⟨0, 0, 0, 0, 1, 0, true⟩, mark_as_processed_op sid s1)
    else (⟨0, 1, 0, 1, 0, 0, false⟩, s1)
  else (⟨0, 0, 1, 0, 0, 0, false⟩, s)

/-- Outcome of the HTTP GET inside `BrightdataClient.get_snapshot_data`. -/
inductive SnapshotRequest where
  | httpError
  | badJson
  | okJson (data : PyJson)

/-- `BrightdataClient.get_snapshot_data` (src/email_scraper.py lines
51-80): returns the parsed JSON body on success and None on a request
error or a JSON decode error — a two-outcome result with no distinct
still-running variant. -/
def get_snapshot_data (r : SnapshotRequest) : Option PyJson :=
  match r with
  | .httpError => none
  | .badJson => none
  | .okJson d => some d

/-- The Python two-variable unpacking `a, b = v`, as Stage 2 applies it to
the poll result (src/app.py line 396,
`data, is_running = brightdata_client.get_snapshot_data(snapshot_id)`):
None is not iterable (TypeError); a list yields its elements, a dict its
keys, a string its characters; the unpacking succeeds only when exactly
two items are produced (otherwise ValueError; the several too-few/too-many
messages are collapsed to one per cause). -/
def pyUnpack2 (v : Option PyJson) : Except (List Char) (PyJson × PyJson) :=
  match v with
  | none => .error ("TypeError: cannot unpack non-iterable NoneType object").toList
  | some (.arr [a, b]) => .ok (a, b)
  | some (.arr _) => .error ("ValueError: unexpected number of values to unpack").toList
  | some (.obj [(k1, _), (k2, _)]) => .ok (.str k1, .str k2)
  | some (.obj _) => .error ("ValueError: unexpected number of values to unpack").toList
  | some (.str [a, b]) => .ok (.str [a], .str [b])
  | some (.str _) => .error ("ValueError: unexpected number of values to unpack").toList
  | some _ => .error ("TypeError: cannot unpack non-iterable object").toList

/-- The declared parameters of `SupabaseClient.get_unextracted_responses`
(src/email_scraper.py line 266): `def get_unextracted_responses(self)` —
there is no limit and no offset parameter. -/
def get_unextracted_responses_params : List String := []

/-- Body of `SupabaseClient.get_unextracted_responses`
(src/email_scraper.py lines 266-282): select every response_table row with
is_email_extracted = false, without any pagination. -/
def get_unextracted_responses (tbl : List (String × PyJson × Bool)) :
    List (String × PyJson × Bool) :=
  tbl.filter (fun r => !r.2.2)

/-- A Python call to `get_unextracted_responses` with keyword arguments, as
Stage 3 issues it (src/app.py line 609,
`get_unextracted_responses(limit=BATCH_SIZE, offset=0)`): a keyword naming
no declared parameter raises TypeError before the body runs. -/
def call_get_unextracted_responses (kwargs : List String)
    (tbl : List (String × PyJson × Bool)) :
    Except (List Char) (List (String × PyJson × Bool)) :=
  if kwargs.all (fun k => get_unextracted_responses_params.contains k) then
    .ok (get_unextracted_responses tbl)
  else
    .error ("TypeError: get_unextracted_responses() got an unexpected keyword argument").toList

/-- A calendar date, as parsed by `datetime.strptime` with format `%Y-%m-%d`. -/
structure PyDate where
  year : Nat
  month : Nat
  day : Nat
deriving DecidableEq

/-- A stored `created_at` timestamp: a date plus a time of day. -/
structure Timestamp where
  date : PyDate
  hour : Nat
  minute : Nat
  second : Nat
deriving DecidableEq

/-- Chronological (lexicographic) strict order on timestamps — the order
the database uses to compare `created_at` values. -/
def tsLt (a b : Timestamp) : Bool :=
  decide (a.date.year < b.date.year) ||
  (decide (a.date.year = b.date.year) &&
    (decide (a.date.month < b.date.month) ||
    (decide (a.date.month = b.date.month) &&
      (decide (a.date.day < b.date.day) ||
      (decide (a.date.day = b.date.day) &&
        (decide (a.hour < b.hour) ||
        (decide (a.hour = b.hour) &&
          (decide (a.minute < b.minute) ||
          (decide (a.minute = b.minute) && decide (a.second < b.second))))))))))

/-- Chronological non-strict order on timestamps. -/
def tsLe (a b : Timestamp) : Bool := tsLt a b || decide (a = b)

/-- The Gregorian leap-year rule, as the Python datetime module implements it. -/
def isLeapYear (y : Nat) : Bool :=
  y % 4 == 0 && (y % 100 != 0 || y % 400 == 0)

/-- Days in a month, as the Python datetime module implements it. -/
def daysInMonth (y m : Nat) : Nat :=
  if m = 2 then (if isLeapYear y then 29 else 28)
  else if m = 4 ∨ m = 6 ∨ m = 9 ∨ m = 11 then 30
  else 31

/-- `datetime.strptime(end_date, ..) + timedelta(days=1)`, then
`strftime` with format `%Y-%m-%d` (src/email_scraper.py lines 322-324): the next
calendar day. -/
def addOneDay (d : PyDate) : PyDate :=
  if d.day < daysInMonth d.year d.month then ⟨d.year, d.month, d.day + 1⟩
  else if d.month < 12 then ⟨d.year, d.month + 1, 1⟩
  else ⟨d.year + 1, 1, 1⟩

/-- A bare `YYYY-MM-DD` value in a timestamp comparison denotes midnight
of that day. -/
def midnight (d : PyDate) : Timestamp := ⟨d, 0, 0, 0⟩

/-- A row of email_table as the date query reads it. -/
structure EmailRow where
  email : String
  created_at : Timestamp
deriving DecidableEq

/-- `SupabaseClient.get_emails_by_date` (src/email_scraper.py lines
303-336): keep rows with `created_at >= start_date` when a start date is
given, keep rows with `created_at < end_date plus one day` when an end
date is given, and order by `created_at` descending. -/
def get_emails_by_date (rows : List EmailRow)
    (start_date end_date : Option PyDate) : List EmailRow :=
  let f1 : List EmailRow :=
    match start_date with
    | some sd => rows.filter (fun (r : EmailRow) => tsLe (midnight sd) r.created_at)
    | none => rows
  let f2 : List EmailRow :=
    match end_date with
    | some ed =>
      f1.filter (fun (r : EmailRow) => tsLt r.created_at (midnight (addOneDay ed)))
    | none => f1
  f2.mergeSort (fun a b => tsLe b.created_at a.created_at)

/-- An email created one minute before midnight on 2024-01-05. -/
def rowC8 : EmailRow := ⟨("x@y.zz"), ⟨⟨2024, 1, 5⟩, 23, 59, 0⟩⟩

/-- The Stage-2 run tally of `process_unprocessed_snapshots`
(src/app.py lines 438-447). -/
structure Stage2Stats where
  total : Nat
  successful : Nat
  failed : Nat
  skipped : Nat
  db_errors : Nat
  duplicate_snapshots : Nat
  running_snapshots : Nat
  message : List Char
deriving DecidableEq

/-- Outer control flow of `process_unprocessed_snapshots` (src/app.py
lines 332-461): a missing API key and an empty worklist return fixed
tallies, the statistics computed by the loop body are returned, and any
exception is caught and converted to the all-zero tally plus an error
message.  (The two early returns omit some counter keys in the source;
callers read them with `.get(key, 0)`, so the model completes them with
zeroes.) -/
def process_unprocessed_snapshots (api_key : String)
    (snapshot_ids : List String)
    (body : Except (List Char) Stage2Stats) : Stage2Stats :=
  if api_key = "" then
    ⟨0, 0, 0, 0, 0, 0, 0, ("API key not provided").toList⟩
  else if snapshot_ids.isEmpty then
    ⟨0, 0, 0, 0, 0, 0, 0, ("No unprocessed snapshots found").toList⟩
  else
    match body with
    | .ok stats => stats
    | .error e => ⟨0, 0, 0, 0, 0, 0, 0, ("Error: ").toList ++ e⟩

/-- The Stage-3 run tally of `process_all_responses_for_emails`
(src/app.py lines 670-678). -/
structure Stage3Stats where
  total : Nat
  successful : Nat
  failed : Nat
  total_emails : Nat
  duplicate_emails : Nat
  db_errors : Nat
  message : List Char
deriving DecidableEq

/-- Outer control flow of `process_all_responses_for_emails` (src/app.py
lines 571-691): the statistics computed by the loop body are returned, and
any exception is caught and converted to the all-zero tally plus an error
message. -/
def process_all_responses_for_emails
    (body : Except (List Char) Stage3Stats) : Stage3Stats :=
  match body with
  | .ok stats => stats
  | .error e => ⟨0, 0, 0, 0, 0, 0, ("Error: ").toList ++ e⟩

/-- `app.process_queries` (src/app.py lines 242-286), the Stage-1
orchestrator wrapper: it returns None — no tally at all — both when the
API key is missing and when the engine raises. -/
def app_process_queries (api_key : String)
    (run : Except (List Char) Stage1Acc) : Option Stage1Acc :=
  if api_key = "" then none
  else
    match run with
    | .ok stats => some stats
    | .error _ => none

theorem isPrefixOf_eq_true_iff (n h : List Char) :
    n.isPrefixOf h = true ↔ ∃ t, h = n ++ t := by
  induction n generalizing h with
  | nil =>
    simp [List.isPrefixOf]
  | cons c n ih =>
    cases h with
    | nil => simp [List.isPrefixOf]
    | cons d t =>
      simp only [List.isPrefixOf, Bool.and_eq_true, beq_iff_eq, ih,
        List.cons_append, List.cons.injEq]
      constructor
      · rintro ⟨rfl, u, rfl⟩
        exact ⟨u, rfl, rfl⟩
      · rintro ⟨u, rfl, rfl⟩
        exact ⟨rfl, u, rfl⟩

theorem containsSub_eq_true_iff (n h : List Char) :
    containsSub n h = true ↔ ∃ a b, h = a ++ n ++ b := by
  induction h with
  | nil =>
    simp only [containsSub, List.isEmpty_iff]
    constructor
    · rintro rfl
      exact ⟨[], [], rfl⟩
    · rintro ⟨a, b, hab⟩
      rcases List.append_eq_nil.mp (List.append_eq_nil.mp hab.symm).1 with ⟨-, h2⟩
      exact h2
  | cons c t ih =>
    simp only [containsSub, Bool.or_eq_true, isPrefixOf_eq_true_iff, ih]
    constructor
    · rintro (⟨u, hu⟩ | ⟨a, b, rfl⟩)
      · exact ⟨[], u, by simpa using hu⟩
      · exact ⟨c :: a, b, rfl⟩
    · rintro ⟨a, b, hab⟩
      cases a with
      | nil =>
        exact Or.inl ⟨b, by simpa using hab⟩
      | cons a0 as =>
        rcases List.cons_eq_cons.mp (by simpa using hab) with ⟨rfl, h2⟩
        exact Or.inr ⟨as, b, by simpa [List.append_assoc] using h2⟩

theorem pyRange_eq_nil (start n step : Nat) (h : n ≤ start) :
    pyRange start n step = [] := by
  rw [pyRange]
  rw [dif_neg]
  omega

theorem pyRange_length (step : Nat) (hstep : 0 < step) :
    ∀ d start n, n - start ≤ d →
      (pyRange start n step).length = (n - start + step - 1) / step := by
  intro d
  induction d with
  | zero =>
    intro start n hle
    rw [pyRange_eq_nil start n step (by omega)]
    have h0 : n - start = 0 := by omega
    rw [h0, List.length_nil]
    rw [Nat.div_eq_of_lt (by omega)]
  | succ d ih =>
    intro start n hle
    by_cases hlt : start < n
    · rw [pyRange]
      rw [dif_pos ⟨hstep, hlt⟩]
      rw [List.length_cons]
      rw [ih (start + step) n (by omega)]
      have h1 : n - (start + step) + step - 1 = n - start - 1 ∨
          (n - start < step ∧ n - (start + step) + step - 1 = step - 1) := by
        omega
      have h2 : n - start + step - 1 = (n - start - 1) + step := by omega
      rcases h1 with h1 | ⟨hsmall, h1⟩
      · rw [h1, h2, Nat.add_div_right _ hstep]
      · rw [h1, h2, Nat.add_div_right _ hstep]
        rw [Nat.div_eq_of_lt (by omega), Nat.div_eq_of_lt (by omega)]
    · rw [pyRange_eq_nil start n step (by omega)]
      have h0 : n - start = 0 := by omega
      rw [h0, List.length_nil]
      rw [Nat.div_eq_of_lt (by omega)]

theorem process_queries_go_spec
    (send : List String → Option (List (String × String)))
    (save : String → Bool) (queries : List String) (B : Nat) (hB : 0 < B) :
    ∀ d start acc, queries.length - start ≤ d →
      (process_queries_go send save queries
          (pyRange start queries.length B) B acc).send_calls
        = acc.send_calls
          ++ (pyRange start queries.length B).map
               (fun i => (queries.drop i).take B) ∧
      (process_queries_go send save queries
          (pyRange start queries.length B) B acc).save_calls
        = acc.save_calls
          ++ (pyRange start queries.length B).filterMap
               (fun i => respSid (send ((queries.drop i).take B))) := by
  intro d
  induction d with
  | zero =>
    intro start acc hle
    rw [pyRange_eq_nil _ _ _ (by omega)]
    simp [process_queries_go]
  | succ d ih =>
    intro start acc hle
    by_cases hlt : start < queries.length
    · rw [pyRange]
      rw [dif_pos ⟨hB, hlt⟩]
      simp only [process_queries_go, List.map_cons, List.filterMap_cons]
      by_cases hrest : start + B < queries.length
      · have hbl : ((queries.drop start).take B).length = B := by
          simp only [List.length_take, List.length_drop]
          omega
        rw [hbl]
        rcases hsid : respSid (send ((queries.drop start).take B)) with _ | sid
        · rw [(ih (start + B) _ (by omega)).1, (ih (start + B) _ (by omega)).2]
          simp
        · by_cases hsave : save sid = true
          · rw [(ih (start + B) _ (by omega)).1, (ih (start + B) _ (by omega)).2]
            simp [hsave]
          · rw [(ih (start + B) _ (by omega)).1, (ih (start + B) _ (by omega)).2]
            simp [hsave]
      · rw [pyRange_eq_nil (start + B) _ _ (by omega)]
        rcases hsid : respSid (send ((queries.drop start).take B)) with _ | sid
        · simp [process_queries_go]
        · by_cases hsave : save sid = true
          · simp [process_queries_go, hsave]
          · simp [process_queries_go, hsave]
    · rw [pyRange_eq_nil _ _ _ (by omega)]
      simp [process_queries_go]

/-- C4: for every query list and every batch size B ≥ 1, Stage 1 performs
exactly ⌈N/B⌉ submission attempts, each sending a batch of at most B
consecutive queries, and `save_snapshot` (job-record creation) is invoked
only with an id obtained from a successful submission. -/
theorem process_queries_batch_spec
    (send : List String → Option (List (String × String)))
    (save : String → Bool) (queries : List String) (B : Nat) (hB : 1 ≤ B) :
    (process_queries send save queries B).send_calls
      = (pyRange 0 queries.length B).map (fun i => (queries.drop i).take B) ∧
    (process_queries send save queries B).send_calls.length
      = (queries.length + B - 1) / B ∧
    ∀ sid ∈ (process_queries send save queries B).save_calls,
      ∃ i ∈ pyRange 0 queries.length B,
        respSid (send ((queries.drop i).take B)) = some sid := by
  rcases process_queries_go_spec send save queries B hB queries.length 0
      ⟨0, 0, 0, [], [], []⟩ (by omega) with ⟨h1, h2⟩
  unfold process_queries
  refine ⟨by simpa using h1, ?_, ?_⟩
  · rw [h1]
    simp only [List.nil_append, List.length_map]
    rw [pyRange_length B hB queries.length 0 queries.length (by omega)]
    rw [Nat.sub_zero]
  · intro sid hsid
    rw [h2] at hsid
    simp only [List.nil_append, List.mem_filterMap] at hsid
    rcases hsid with ⟨i, hi, hr⟩
    exact ⟨i, hi, hr⟩

theorem process_queries_batch_spec_witness :
    (1 ≤ 2) ∧
    (process_queries sendC4 (fun _ => true) (["q1", "q2", "q3"]) 2).send_calls.length
      = ((["q1", "q2", "q3"] : List String).length + 2 - 1) / 2 :=
  ⟨by decide,
    (process_queries_batch_spec sendC4 (fun _ => true)
      (["q1", "q2", "q3"]) 2 (by decide)).2.1⟩

/-- C10: the write operations of the store classify a failed insert as Duplicate
iff the text of the raised exception, lowercased, contains the substring
`duplicate` or the substring `unique`; every other exception is classified
as Error, and `save_response` classifies exactly as `save_email` does. -/
theorem save_classification_by_text (msg : List Char) :
    ((save_email (.exn msg)).2 = ("duplicate").toList ↔
      (∃ a b, pyLower msg = a ++ ("duplicate").toList ++ b) ∨
      (∃ a b, pyLower msg = a ++ ("unique").toList ++ b)) ∧
    ((save_email (.exn msg)).2 = ("duplicate").toList ∨
      (save_email (.exn msg)).2 = ("error").toList) ∧
    save_response (.exn msg) = save_email (.exn msg) := by
  have hd := containsSub_eq_true_iff ("duplicate").toList (pyLower msg)
  have hu := containsSub_eq_true_iff ("unique").toList (pyLower msg)
  refine ⟨?_, ?_, rfl⟩
  · rw [← hd, ← hu]
    simp only [save_email, classifyInsertError]
    by_cases h : (containsSub ("duplicate").toList (pyLower msg)
        || containsSub ("unique").toList (pyLower msg)) = true
    · rw [if_pos h]
      rw [Bool.or_eq_true] at h
      exact ⟨fun _ => h, fun _ => rfl⟩
    · rw [if_neg h]
      rw [Bool.or_eq_true] at h
      constructor
      · intro hc
        exact absurd hc (by decide)
      · intro hor
        exact absurd hor h
  · simp only [save_email, classifyInsertError]
    by_cases h : (containsSub ("duplicate").toList (pyLower msg)
        || containsSub ("unique").toList (pyLower msg)) = true
    · rw [if_pos h]
      exact Or.inl rfl
    · rw [if_neg h]
      exact Or.inr rfl

example : findallEmails ("aa@bb.cc|d").toList = [("aa@bb.cc|d").toList] := by decide

example : findallEmails ("contact: a@b.com, a@b.com").toList
    = [("a@b.com").toList, ("a@b.com").toList] := by decide

example : extract_emails_from_text ("contact: a@b.com, a@b.com").toList
    = [("a@b.com").toList] := by decide

example : findallEmails ("x.y@mail.example.org!").toList
    = [("x.y@mail.example.org").toList] := by decide

example : findallEmails ("no emails here").toList = [] := by decide

example : findallEmails ("a@b.c").toList = [] := by decide

theorem matchTld_shape (t tld rest : List Char)
    (h : matchTld t = some (tld, rest)) :
    2 ≤ tld.length ∧ tld.all isTldChar = true := by
  simp only [matchTld] at h
  rcases List.exists_of_findSome?_eq_some h with ⟨k, hk, hfk⟩
  have hkb : 2 ≤ k ∧ k ≤ (t.takeWhile isTldChar).length := by
    simp only [descLens, List.mem_map, List.mem_range] at hk
    rcases hk with ⟨i, hi, rfl⟩
    omega
  split at hfk
  · simp only [Option.some.injEq, Prod.mk.injEq] at hfk
    rcases hfk with ⟨h1, h2⟩
    subst h1
    constructor
    · simp only [List.length_take]
      omega
    · rw [List.all_eq_true]
      intro x hx
      exact List.mem_takeWhile_imp (List.mem_of_mem_take hx)
  · exact absurd hfk (by simp)

theorem matchDomainTld_shape (r dom tld rest : List Char)
    (h : matchDomainTld r = some (dom, tld, rest)) :
    dom ≠ [] ∧ dom.all isDomainChar = true ∧
      2 ≤ tld.length ∧ tld.all isTldChar = true := by
  simp only [matchDomainTld] at h
  rcases List.exists_of_findSome?_eq_some h with ⟨k, hk, hfk⟩
  rw [List.mem_reverse, List.mem_filter] at hk
  rcases hk with ⟨hkr, hkp⟩
  rw [List.mem_range] at hkr
  simp only [Bool.and_eq_true, decide_eq_true_eq, beq_iff_eq] at hkp
  split at hfk
  · rename_i tld2 rest2 heq
    simp only [Option.some.injEq, Prod.mk.injEq] at hfk
    rcases hfk with ⟨h1, h2, h3⟩
    subst h1
    subst h2
    subst h3
    rcases matchTld_shape _ _ _ heq with ⟨ht1, ht2⟩
    refine ⟨?_, ?_, ht1, ht2⟩
    · have hp : 0 < ((r.takeWhile isDomainChar).take k).length := by
        simp only [List.length_take]
        omega
      exact List.length_pos.mp hp
    · rw [List.all_eq_true]
      intro x hx
      exact List.mem_takeWhile_imp (List.mem_of_mem_take hx)
  · exact absurd hfk (by simp)

theorem matchAt_shape (prev : Option Char) (s m rest : List Char)
    (h : matchAt prev s = some (m, rest)) : EmailShape m := by
  simp only [matchAt] at h
  split at h
  · split at h
    · exact absurd h (by simp)
    · rename_i hne
      split at h
      · rename_i c r2 hdrop
        split at h
        · rename_i hat
          split at h
          · rename_i dom tld rest2 heq
            simp only [Option.some.injEq, Prod.mk.injEq] at h
            rcases h with ⟨hm, hr⟩
            rcases matchDomainTld_shape _ _ _ _ heq with ⟨hd1, hd2, ht1, ht2⟩
            subst hat
            refine ⟨s.takeWhile isLocalChar, dom, tld, ?_, ?_, ?_, hd1, hd2, ht1, ht2⟩
            · rw [← hm]
              simp
            · intro hnil
              exact hne (by simp [hnil])
            · rw [List.all_eq_true]
              intro x hx
              exact List.mem_takeWhile_imp hx
          · exact absurd h (by simp)
        · exact absurd h (by simp)
      · exact absurd h (by simp)
  · exact absurd h (by simp)

theorem findallAux_shape :
    ∀ (fuel : Nat) (prev : Option Char) (s m : List Char),
      m ∈ findallAux fuel prev s → EmailShape m := by
  intro fuel
  induction fuel with
  | zero =>
    intro prev s m hm
    simp [findallAux] at hm
  | succ fuel ih =>
    intro prev s m hm
    cases s with
    | nil => simp [findallAux] at hm
    | cons c cs =>
      simp only [findallAux] at hm
      split at hm
      · rename_i m0 rest heq
        rcases List.mem_cons.mp hm with rfl | hm2
        · exact matchAt_shape _ _ _ _ heq
        · exact ih _ _ _ hm2
      · exact ih _ _ _ hm

/-- C6 (amended): every string returned by `extract_emails_from_text`
decomposes as a nonempty local part over `[A-Za-z0-9._%+-]`, an `@`, a
nonempty domain part over `[A-Za-z0-9.-]`, a `.`, and a final label of two
or more characters over the class `[A-Z|a-z]` — which contains the literal
`|` besides the letters; grammar-conforming substrings that overlap another
match are not separately returned. -/
theorem extract_emails_from_text_shape (text m : List Char)
    (hm : m ∈ extract_emails_from_text text) : EmailShape m := by
  have hm2 : m ∈ findallEmails text := by
    rw [extract_emails_from_text, List.mem_dedup] at hm
    exact hm
  exact findallAux_shape _ _ _ _ hm2

theorem extract_emails_from_text_shape_witness :
    (("a@b.com").toList ∈ extract_emails_from_text ("contact: a@b.com").toList) ∧
      EmailShape (("a@b.com").toList) :=
  ⟨by decide, extract_emails_from_text_shape ("contact: a@b.com").toList
    (("a@b.com").toList) (by decide)⟩

/-- C6 counterexample: on the input `aa@bb.cc|d` the engine returns exactly
the string `aa@bb.cc|d`, which is outside the canonical grammar (its final
label contains `|`, not letters only), while the canonical-grammar
substring `a@bb.cc` of the same input is not returned. -/
theorem extract_emails_c6_counterexample :
    extract_emails_from_text ("aa@bb.cc|d").toList = [("aa@bb.cc|d").toList] ∧
    isSpecEmail ("aa@bb.cc|d").toList = false ∧
    isSpecEmail ("a@bb.cc").toList = true ∧
    ("aa@bb.cc|d").toList = ['a'] ++ ("a@bb.cc").toList ++ ['|', 'd'] ∧
    ¬ ("a@bb.cc").toList ∈ extract_emails_from_text ("aa@bb.cc|d").toList := by
  refine ⟨by decide, by decide, by decide, by decide, by decide⟩

/-- C7: extraction is deduplicating within a single payload and
deterministic: the returned list never repeats an address, a payload whose
serialised text matches the same address at two or more positions yields
that address exactly once, and re-running extraction on the unchanged
payload gives the same result. -/
theorem count_eq_one_of_nodup_mem {α : Type} [BEq α] [LawfulBEq α]
    (l : List α) (e : α) (hn : l.Nodup) (he : e ∈ l) : l.count e = 1 := by
  induction l with
  | nil => simp at he
  | cons a t ih =>
    rw [List.count_cons]
    rcases List.nodup_cons.mp hn with ⟨hna, hnt⟩
    rcases List.mem_cons.mp he with rfl | ht
    · rw [List.count_eq_zero_of_not_mem hna]
      simp
    · have hne : ¬ (a == e) = true := by
        intro hab
        rw [beq_iff_eq] at hab
        subst hab
        exact hna ht
      rw [ih hnt ht, if_neg hne]

theorem extract_emails_from_json_set_semantics (j : PyJson) (e : List Char) :
    (extract_emails_from_json j).Nodup ∧
    extract_emails_from_json j = extract_emails_from_json j ∧
    (2 ≤ List.count e (findallEmails (dumps j)) →
      List.count e (extract_emails_from_json j) = 1) := by
  refine ⟨List.nodup_dedup _, rfl, ?_⟩
  intro h2
  have he : e ∈ findallEmails (dumps j) := by
    rw [← List.count_pos_iff]
    omega
  have hed : e ∈ extract_emails_from_json j := by
    rw [extract_emails_from_json, extract_emails_from_text, List.mem_dedup]
    exact he
  exact count_eq_one_of_nodup_mem _ _ (List.nodup_dedup _) hed

theorem extract_emails_from_json_set_semantics_witness :
    (2 ≤ List.count (("a@bb.cc").toList) (findallEmails (dumps jC7))) ∧
    List.count (("a@bb.cc").toList) (extract_emails_from_json jC7) = 1 :=
  ⟨by decide,
    (extract_emails_from_json_set_semantics jC7 (("a@bb.cc").toList)).2.2 (by decide)⟩

theorem applyOp_mono (op : StoreOp) (s : StoreState) (id : String) :
    (snapshotProcessed s id = true → snapshotProcessed (applyOp op s) id = true) ∧
    (responseExtracted s id = true → responseExtracted (applyOp op s) id = true) := by
  cases op with
  | saveSnapshot sid =>
    constructor
    · intro h
      simp only [applyOp, save_snapshot_op]
      split
      · exact h
      · simp only [snapshotProcessed, List.any_append, Bool.or_eq_true]
        exact Or.inl h
    · intro h
      simp only [applyOp, save_snapshot_op]
      split
      · exact h
      · exact h
  | markAsProcessed sid =>
    constructor
    · intro h
      simp only [snapshotProcessed, List.any_eq_true] at h ⊢
      rcases h with ⟨r, hr, hpr⟩
      simp only [applyOp, mark_as_processed_op, List.mem_map]
      refine ⟨if r.1 == sid then (r.1, true) else r, ⟨r, hr, rfl⟩, ?_⟩
      rw [Bool.and_eq_true] at hpr
      rcases hpr with ⟨h1, h2⟩
      split
      · simp [h1]
      · simp [h1, h2]
    · intro h
      exact h
  | saveResponse sid p =>
    constructor
    · intro h
      simp only [applyOp, save_response_op]
      split
      · exact h
      · exact h
    · intro h
      simp only [applyOp, save_response_op]
      split
      · exact h
      · simp only [responseExtracted, List.any_append, Bool.or_eq_true]
        exact Or.inl h
  | markEmailExtracted sid =>
    constructor
    · intro h
      exact h
    · intro h
      simp only [responseExtracted, List.any_eq_true] at h ⊢
      rcases h with ⟨r, hr, hpr⟩
      simp only [applyOp, mark_email_extracted_op, List.mem_map]
      refine ⟨if r.1 == sid then (r.1, r.2.1, true) else r, ⟨r, hr, rfl⟩, ?_⟩
      rw [Bool.and_eq_true] at hpr
      rcases hpr with ⟨h1, h2⟩
      split
      · simp [h1]
      · simp [h1, h2]
  | saveEmail a =>
    constructor
    · intro h
      simp only [applyOp, save_email_op]
      split
      · exact h
      · exact h
    · intro h
      simp only [applyOp, save_email_op]
      split
      · exact h
      · exact h

/-- C5: over every sequence of store operations any stage can issue,
status flags only advance: a Processed job never reverts to Pending and an
extracted response never reverts to unextracted. -/
theorem store_status_monotone (ops : List StoreOp) (s : StoreState) (id : String) :
    (snapshotProcessed s id = true → snapshotProcessed (applyOps ops s) id = true) ∧
    (responseExtracted s id = true → responseExtracted (applyOps ops s) id = true) := by
  induction ops generalizing s with
  | nil => exact ⟨fun h => h, fun h => h⟩
  | cons op rest ih =>
    constructor
    · intro h
      exact (ih (applyOp op s)).1 ((applyOp_mono op s id).1 h)
    · intro h
      exact (ih (applyOp op s)).2 ((applyOp_mono op s id).2 h)

theorem store_status_monotone_witness :
    (snapshotProcessed ⟨[(("s1"), true)], [(("s1"), PyJson.null, true)], []⟩ ("s1") = true) ∧
    (snapshotProcessed
      (applyOps
        [StoreOp.saveSnapshot ("s1"), StoreOp.saveEmail ("a@b.co"),
         StoreOp.markEmailExtracted ("s1"), StoreOp.saveResponse ("s1") PyJson.null]
        ⟨[(("s1"), true)], [(("s1"), PyJson.null, true)], []⟩) ("s1") = true) :=
  ⟨by decide,
    (store_status_monotone
      [StoreOp.saveSnapshot ("s1"), StoreOp.saveEmail ("a@b.co"),
       StoreOp.markEmailExtracted ("s1"), StoreOp.saveResponse ("s1") PyJson.null]
      ⟨[(("s1"), true)], [(("s1"), PyJson.null, true)], []⟩ ("s1")).1 (by decide)⟩

theorem mark_sets_processed (sid : String) (s : StoreState)
    (hrow : s.snapshot_table.any (fun r => r.1 == sid) = true) :
    snapshotProcessed (mark_as_processed_op sid s) sid = true := by
  rw [List.any_eq_true] at hrow
  rcases hrow with ⟨r, hr, hid⟩
  simp only [snapshotProcessed, mark_as_processed_op, List.any_eq_true]
  refine ⟨(r.1, true), ?_, ?_⟩
  · rw [List.mem_map]
    exact ⟨r, hr, by rw [if_pos hid]⟩
  · simp only [Bool.and_eq_true]
    exact ⟨hid, trivial⟩

/-- C3: in a Stage-2 iteration whose payload was retrieved, the job is
marked Processed exactly when `save_response` returned success or reported
a duplicate, and on a save error the job table is left untouched (the
job stays Pending). -/
theorem stage2_save_mark_contract (sid : String) (data : Option PyJson)
    (saveOutcome : InsertOutcome) (markFault : Bool) (s : StoreState)
    (hdata : pyTruthy data = true)
    (hrow : s.snapshot_table.any (fun r => r.1 == sid) = true)
    (hmark : markFault = false) :
    (((save_response saveOutcome).1 = true ∨
        (save_response saveOutcome).2 = ("duplicate").toList) →
      ((stage2_item sid false data saveOutcome markFault s).1.markProcessedCalled = true ∧
        snapshotProcessed (stage2_item sid false data saveOutcome markFault s).2 sid = true)) ∧
    ((save_response saveOutcome).2 = ("error").toList →
      ((stage2_item sid false data saveOutcome markFault s).1.markProcessedCalled = false ∧
        (stage2_item sid false data saveOutcome markFault s).2.snapshot_table
          = s.snapshot_table)) := by
  subst hmark
  have hst1 : ∀ p, (save_response_op sid p s).snapshot_table = s.snapshot_table := by
    intro p
    simp only [save_response_op]
    split
    · rfl
    · rfl
  cases saveOutcome with
  | ok =>
    constructor
    · intro _
      constructor
      · simp [stage2_item, hdata, save_response]
      · have hrow2 : (save_response_op sid (data.getD .null) s).snapshot_table.any
            (fun r => r.1 == sid) = true := by
          rw [hst1]
          exact hrow
        have hmp := mark_sets_processed sid _ hrow2
        simpa [stage2_item, hdata, save_response] using hmp
    · intro habs
      exact absurd habs (by decide)
  | exn msg =>
    by_cases hc : (containsSub ("duplicate").toList (pyLower msg)
        || containsSub ("unique").toList (pyLower msg)) = true
    · have hcls : classifyInsertError msg = errDuplicate := by
        rw [classifyInsertError, if_pos hc]
      constructor
      · intro _
        constructor
        · simp [stage2_item, hdata, save_response, hcls]
        · have hmp := mark_sets_processed sid s hrow
          simpa [stage2_item, hdata, save_response, hcls] using hmp
      · intro habs
        have habs2 : errDuplicate = ("error").toList := by
          rw [← hcls]
          simpa [save_response] using habs
        exact absurd habs2 (by decide)
    · have hcls : classifyInsertError msg = errError := by
        rw [classifyInsertError, if_neg hc]
      have hne : ¬ (errError = errDuplicate) := by decide
      constructor
      · intro h
        rcases h with h | h
        · exact absurd h (by simp [save_response])
        · have habs2 : errError = ("duplicate").toList := by
            rw [← hcls]
            simpa [save_response] using h
          exact absurd habs2 (by decide)
      · intro _
        constructor
        · simp [stage2_item, hdata, save_response, hcls, hne]
        · simp [stage2_item, hdata, save_response, hcls, hne]

theorem stage2_save_mark_contract_witness :
    (pyTruthy (some (PyJson.str ("x").toList)) = true ∧
      (([(("s1"), false)] : List (String × Bool)).any (fun r => r.1 == ("s1")) = true)) ∧
    snapshotProcessed
      (stage2_item ("s1") false (some (PyJson.str ("x").toList)) InsertOutcome.ok false
        ⟨[(("s1"), false)], [], []⟩).2 ("s1") = true :=
  ⟨⟨by decide, by decide⟩,
    ((stage2_save_mark_contract ("s1") (some (PyJson.str ("x").toList)) InsertOutcome.ok
      false ⟨[(("s1"), false)], [], []⟩ (by decide) (by decide) rfl).1
        (Or.inl (by decide))).2⟩

/-- C1 (the code evaluated at the failing input): the retrieval client has
exactly the two outcomes `some payload` and `none` — there is no
StillRunning variant — and the Stage-2 tuple unpacking of the result of a
failed poll request raises a TypeError instead of reaching the intended
three-way branch. -/
theorem get_snapshot_data_two_outcomes :
    (∀ r, get_snapshot_data r = none ∨ ∃ d, get_snapshot_data r = some d) ∧
    pyUnpack2 (get_snapshot_data .httpError)
      = .error ("TypeError: cannot unpack non-iterable NoneType object").toList := by
  constructor
  · intro r
    cases r with
    | httpError => exact Or.inl rfl
    | badJson => exact Or.inl rfl
    | okJson d => exact Or.inr ⟨d, rfl⟩
  · rfl

/-- C2 (the code evaluated at the failing input): the Stage-3 page fetch
`get_unextracted_responses(limit=20, offset=0)` raises a TypeError for
every table state, because the store method accepts no pagination
parameters; the body of the method returns every unextracted row, not at
most `limit` of them. -/
theorem stage3_fetch_call_type_error (tbl : List (String × PyJson × Bool)) :
    call_get_unextracted_responses [("limit"), ("offset")] tbl
      = .error ("TypeError: get_unextracted_responses() got an unexpected keyword argument").toList ∧
    get_unextracted_responses tbl = tbl.filter (fun r => !r.2.2) := by
  exact ⟨rfl, rfl⟩

theorem tsLe_total (a b : Timestamp) : (tsLe a b || tsLe b a) = true := by
  rcases a with ⟨⟨y1, m1, d1⟩, h1, mi1, s1⟩
  rcases b with ⟨⟨y2, m2, d2⟩, h2, mi2, s2⟩
  simp only [tsLe, tsLt, Bool.or_eq_true, Bool.and_eq_true, decide_eq_true_eq,
    Timestamp.mk.injEq, PyDate.mk.injEq]
  omega

theorem tsLe_trans (a b c : Timestamp) (hab : tsLe a b = true)
    (hbc : tsLe b c = true) : tsLe a c = true := by
  rcases a with ⟨⟨y1, m1, d1⟩, h1, mi1, s1⟩
  rcases b with ⟨⟨y2, m2, d2⟩, h2, mi2, s2⟩
  rcases c with ⟨⟨y3, m3, d3⟩, h3, mi3, s3⟩
  simp only [tsLe, tsLt, Bool.or_eq_true, Bool.and_eq_true, decide_eq_true_eq,
    Timestamp.mk.injEq, PyDate.mk.injEq] at hab hbc ⊢
  omega

theorem ts_lt_next_midnight (t : Timestamp) (ed : PyDate) (h : t.date = ed) :
    tsLt t (midnight (addOneDay ed)) = true := by
  subst h
  rcases t with ⟨⟨y, m, d⟩, hh, mi, s⟩
  simp only [midnight, addOneDay]
  split
  · simp only [tsLt, Bool.or_eq_true, Bool.and_eq_true, decide_eq_true_eq, true_and]
    omega
  · split
    · simp only [tsLt, Bool.or_eq_true, Bool.and_eq_true, decide_eq_true_eq, true_and]
      omega
    · simp only [tsLt, Bool.or_eq_true, Bool.and_eq_true, decide_eq_true_eq, true_and]
      omega

/-- C8: an email whose `created_at` falls anywhere on the `end_date`
calendar day is included by the date-range query (the end date is
inclusive of the whole day), and the result is ordered by `created_at`
descending. -/
theorem get_emails_by_date_end_inclusive (rows : List EmailRow) (ed : PyDate)
    (r : EmailRow) (hr : r ∈ rows) (hsame : r.created_at.date = ed) :
    r ∈ get_emails_by_date rows none (some ed) ∧
    (get_emails_by_date rows none (some ed)).Pairwise
      (fun a b => tsLe b.created_at a.created_at = true) := by
  constructor
  · simp only [get_emails_by_date]
    rw [(List.mergeSort_perm _ _).mem_iff]
    rw [List.mem_filter]
    exact ⟨hr, ts_lt_next_midnight r.created_at ed hsame⟩
  · simp only [get_emails_by_date]
    exact List.sorted_mergeSort
      (fun x y z hxy hyz => tsLe_trans z.created_at y.created_at x.created_at hyz hxy)
      (fun x y => tsLe_total y.created_at x.created_at) _

theorem get_emails_by_date_end_inclusive_witness :
    (rowC8 ∈ [rowC8] ∧ rowC8.created_at.date = ⟨2024, 1, 5⟩) ∧
    rowC8 ∈ get_emails_by_date [rowC8] none (some ⟨2024, 1, 5⟩) :=
  ⟨⟨List.mem_singleton.mpr rfl, rfl⟩,
    (get_emails_by_date_end_inclusive [rowC8] ⟨2024, 1, 5⟩ rowC8
      (List.mem_singleton.mpr rfl) rfl).1⟩

/-- C9 counterexample: two concrete Stage-1 orchestrator runs whose caller
receives no aggregate at all — the missing-API-key run and a run whose
engine raises both return None instead of a tally. -/
theorem app_process_queries_counterexample :
    app_process_queries ("") (.ok ⟨0, 0, 0, [], [], []⟩) = none ∧
    app_process_queries ("key") (.error ("boom").toList) = none := ⟨rfl, rfl⟩

/-- C9 (amended): the Stage-2 and Stage-3 orchestrators always return a
structured tally, and on total failure (their body raising) the tally is
all-zero with an error message; the Stage-1 wrapper is the exception — it
returns None on failure rather than a tally. -/
theorem orchestrators_failure_tally (k : String) (ids : List String)
    (e : List Char) (hk : ¬ k = "") (hids : ids.isEmpty = false) :
    process_unprocessed_snapshots k ids (.error e)
      = ⟨0, 0, 0, 0, 0, 0, 0, ("Error: ").toList ++ e⟩ ∧
    process_all_responses_for_emails (.error e)
      = ⟨0, 0, 0, 0, 0, 0, ("Error: ").toList ++ e⟩ := by
  constructor
  · rw [process_unprocessed_snapshots, if_neg hk, if_neg]
    simp [hids]
  · rfl

theorem orchestrators_failure_tally_witness :
    (¬ ("key") = "" ∧ ([("s1")] : List String).isEmpty = false) ∧
    process_unprocessed_snapshots ("key") [("s1")] (.error ("boom").toList)
      = ⟨0, 0, 0, 0, 0, 0, 0, ("Error: ").toList ++ ("boom").toList⟩ :=
  ⟨⟨by decide, by decide⟩,
    (orchestrators_failure_tally ("key") [("s1")] ("boom").toList
      (by decide) (by decide)).1⟩
